import Mathlib

/-!
Verification of the Relay Session core of the `ajax_alarm` gateway
(`src/relay.rs`).  The Rust actor is shallowly embedded: lines and keys are
`List Char` (the protocol is ASCII), Rust `u8`/`u32` become `Nat` with an
explicit `% 2 ^ 32` where wrapping matters, panicking code paths return
`Option` (with `none` for a panic), and the actor's observable effects
(outbound writes, status broadcasts, per-subscriber deliveries, fired
oneshot slots) are recorded as event lists inside the state.  Real time
(the 10 s request timeout, the heartbeat `Instant`s) is not modelled.
-/

set_option maxHeartbeats 1000000

namespace AjaxAlarm

/-- Model of Rust `char::to_digit(10)`: the decimal value of a digit
character, `none` otherwise. -/
def charToDigit (c : Char) : Option Nat :=
  if c.isDigit then some (c.toNat - '0'.toNat) else none

/-- Model of Rust `str::split(sep)` on an ASCII line: the list of fragments
between occurrences of `sep` (an empty input yields one empty fragment,
as in Rust). -/
def splitOnChar (sep : Char) : List Char → List (List Char)
  | [] => [[]]
  | x :: xs =>
    let r := splitOnChar sep xs
    if x = sep then [] :: r
    else
      match r with
      | [] => [[x]]
      | y :: ys => (x :: y) :: ys

/-- Model of Rust `str::trim` for the ASCII protocol text. -/
def trimChars (l : List Char) : List Char :=
  ((l.dropWhile Char.isWhitespace).reverse.dropWhile Char.isWhitespace).reverse

/-- Decimal digit run to a number, `none` when empty or having a
non-digit: the core of Rust integer `parse`. -/
def parseDigits (l : List Char) : Option Nat :=
  if l = [] then none
  else l.foldl (fun acc c => acc.bind fun a => (charToDigit c).map fun d => 10 * a + d) (some 0)

/-- Rust integer `parse` accepts one optional leading `+` sign. -/
def stripPlusSign : List Char → List Char
  | '+' :: r => r
  | l => l

/-- Model of Rust `str::parse::<u8>()`. -/
def parseU8 (l : List Char) : Option Nat :=
  (parseDigits (stripPlusSign l)).bind fun v => if v < 256 then some v else none

/-- Model of Rust `str::parse::<u32>()`. -/
def parseU32 (l : List Char) : Option Nat :=
  (parseDigits (stripPlusSign l)).bind fun v => if v < 2 ^ 32 then some v else none

/-- `OCCH_ALL_PATTERN` from `relay.rs`. -/
def OCCH_ALL_PATTERN : List Char := "+OCCH_ALL".data

/-- `STACH_PATTERN` from `relay.rs`. -/
def STACH_PATTERN : List Char := "+STACH".data

/-- `TIME_PATTERN` from `relay.rs`. -/
def TIME_PATTERN : List Char := "+TIME".data

/-- `TIMESW_PATTERN` from `relay.rs`. -/
def TIMESW_PATTERN : List Char := "+TIMESW".data

/-- The mask loop of `RelayActor::handle_occh_all`: clone the decoded
vector, reverse it, and fold `mask = (mask << 1) + input` in `u32`
arithmetic (both operations wrap modulo `2 ^ 32`). -/
def computeMask (states : List Nat) : Nat :=
  states.reverse.foldl (fun m x => (2 * m + x) % 2 ^ 32) 0

/-- Modelled from the spec's formula (design note of `spec.md`):
`mask = sum over i of (inputs[i] << i)`, written in Horner form.  This is
the reference definition C9 compares the code's `computeMask` against. -/
def maskSpec : List Nat → Nat
  | [] => 0
  | x :: xs => x + 2 * maskSpec xs

/-- `SystemTime` payload from `relay.rs` (`date_time : String`,
`day_of_week : u8`). -/
structure SystemTime where
  date_time : List Char
  day_of_week : Nat
deriving DecidableEq, Repr

/-- `DailyEvent` payload from `relay.rs`. -/
structure DailyEvent where
  time : List Char
  state : Nat
deriving DecidableEq, Repr

/-- `CustomEvent` payload from `relay.rs`. -/
structure CustomEvent where
  date_time : List Char
  state : Nat
deriving DecidableEq, Repr

/-- `RelayStatus` message from `relay.rs`. -/
structure RelayStatus where
  inputs : Option (List Nat)
  connected : Bool
deriving DecidableEq, Repr

/-- The type-erased payload a oneshot slot carries (`Box<dyn Any>` in the
source holds one of exactly these four reply shapes). -/
inductive RValue where
  | time (t : SystemTime)
  | state (s : Nat)
  | daily (es : List DailyEvent)
  | custom (es : List CustomEvent)
deriving DecidableEq, Repr

/-- State of `RelayActor`, plus event logs for its observable effects.
`clients` maps a subscriber id to its delivery handle, modelled by the one
bit the session can observe: whether `do_send` to it succeeds.  `oneshots`
is the pending table, each waiter named by the id its channel got from
`nextWaiter`.  `writes`, `broadcasts`, `sent` and `fired` log lines handed
to the write codec, `send_status` invocations, per-subscriber deliveries
and oneshot deliveries.  The `hb : Instant` field and the write half
itself are real-time / I-O objects; only the presence of the write channel
(`framed`) is kept. -/
structure RState where
  host : List Char
  port : Nat
  inputs_number : Nat
  outputs_number : Nat
  inputs : List Nat
  inputs_mask : Nat
  connected : Bool
  framed : Bool
  clients : List (Nat × Bool)
  oneshots : List (List Char × List Nat)
  nextWaiter : Nat
  writes : List (List Char)
  broadcasts : List RelayStatus
  sent : List (Nat × RelayStatus)
  fired : List (List Char × Nat × RValue)
deriving DecidableEq, Repr

/-- `impl Default for RelayActor` from `relay.rs`: four inputs, the mask
sentinel `0xff`, no connection, empty registries. -/
def RelayActor.default : RState where
  host := []
  port := 12345
  inputs_number := 4
  outputs_number := 4
  inputs := List.replicate 4 0
  inputs_mask := 0xff
  connected := false
  framed := false
  clients := []
  oneshots := []
  nextWaiter := 0
  writes := []
  broadcasts := []
  sent := []
  fired := []

/-- `RelayActor::new`: overrides host, port and the two counts, and sizes
the input vector; everything else (the `0xff` mask sentinel included)
comes from `Default`. -/
def RelayActor.new (host : List Char) (port inputs_number outputs_number : Nat) : RState :=
  { RelayActor.default with
    host := host
    port := port
    inputs_number := inputs_number
    outputs_number := outputs_number
    inputs := List.replicate inputs_number 0 }

/-- Association lookup for the pending table (`HashMap::get_mut`). -/
def getQ (k : List Char) : List (List Char × List Nat) → Option (List Nat)
  | [] => none
  | (k', q) :: t => if k = k' then some q else getQ k t

/-- Replace the queue stored under a key known to be present
(the in-place mutation of the `VecDeque` behind `get_mut`). -/
def setQ (k : List Char) (q : List Nat) : List (List Char × List Nat) → List (List Char × List Nat)
  | [] => [(k, q)]
  | (k', q') :: t => if k = k' then (k, q) :: t else (k', q') :: setQ k q t

/-- `RelayActor::enqueue_oneshot`, stripped of real time: make a fresh
oneshot channel (named by `nextWaiter`), push its sender to the back of
the key's queue (creating the queue when absent), and hand the receiver —
the returned waiter id — to the caller.  The 10 s timeout wrapping of the
returned future is real-time behaviour and is not modelled. -/
def enqueue_oneshot (st : RState) (key : List Char) : RState × Nat :=
  let w := st.nextWaiter
  let os :=
    match getQ key st.oneshots with
    | some q => setQ key (q ++ [w]) st.oneshots
    | none => st.oneshots ++ [(key, [w])]
  ({ st with oneshots := os, nextWaiter := w + 1 }, w)

/-- `RelayActor::fire_oneshot`: when the key has a non-empty queue, pop the
oldest sender and deliver the value to it (a delivery into a dropped
receiver is logged and ignored, so the fired event is recorded either
way); otherwise drop the value. -/
def fire_oneshot (st : RState) (key : List Char) (v : RValue) : RState :=
  match getQ key st.oneshots with
  | some (w :: rest) =>
    { st with oneshots := setQ key rest st.oneshots, fired := st.fired ++ [(key, w, v)] }
  | _ => st

/-- The loop body of `RelayActor::send_status`:
`addr.do_send(message.clone()).unwrap()` for each registered client, in
iteration order.  Returns the deliveries that happened and whether the
`unwrap` panicked: the first client whose send fails panics the loop,
and the clients after it are never reached. -/
def do_send_all (m : RelayStatus) : List (Nat × Bool) → List (Nat × RelayStatus) × Bool
  | [] => ([], false)
  | (id, ok) :: rest =>
    if ok then
      let (ds, p) := do_send_all m rest
      ((id, m) :: ds, p)
    else ([], true)

/-- `RelayActor::send_status` as a state transformer: `none` when the
`unwrap` on a failed `do_send` panics. -/
def send_status (st : RState) (m : RelayStatus) : Option RState :=
  if (do_send_all m st.clients).2 then none
  else some { st with
    broadcasts := st.broadcasts ++ [m]
    sent := st.sent ++ (do_send_all m st.clients).1 }

/-- The `format!("{}{}", STACH_PATTERN, _)` key formatter shared (as a
format string) by `Handler<GetOutput>` and `handle_stach`. -/
def stachKeyFmt (n : Nat) : List Char :=
  STACH_PATTERN ++ Nat.toDigits 10 n

/-- The `format!("{}:{},{}", TIMESW_PATTERN, _, _)` key formatter shared
(as a format string) by the schedule query handlers and `handle_timesw`. -/
def timeswKeyFmt (output_no mode : Nat) : List Char :=
  TIMESW_PATTERN ++ ':' :: (Nat.toDigits 10 output_no ++ ',' :: Nat.toDigits 10 mode)

/-- Reply-key of `Handler<GetSystemTime>`: `format!("{}", TIME_PATTERN)`. -/
def getSystemTimeKey : List Char := TIME_PATTERN

/-- Reply-key of `Handler<GetOutput>` for output `n`. -/
def getOutputKey (n : Nat) : List Char := stachKeyFmt n

/-- Reply-key of `Handler<GetOutputDailySchedule>` for output `n`. -/
def getDailyKey (n : Nat) : List Char := timeswKeyFmt n 1

/-- Reply-key of `Handler<GetOutputCustomSchedule>` for output `n`. -/
def getCustomKey (n : Nat) : List Char := timeswKeyFmt n 3

/-- Key of `RelayActor::handle_time`: `format!("{}", TIME_PATTERN)`. -/
def timeKey : List Char := TIME_PATTERN

/-- The field decode of `RelayActor::handle_time`: `split_at(6)` (panics
when the line is shorter), `split_at(20)` on the remainder (panics when
that is shorter), `trim` of the date-time part, and
`parse::<u8>().unwrap()` of the rest.  `none` is a panic. -/
def timeDecode (line : List Char) : Option SystemTime :=
  if 6 ≤ line.length then
    let value := line.drop 6
    if 20 ≤ value.length then
      match parseU8 (value.drop 20) with
      | some d => some ⟨trimChars (value.take 20), d⟩
      | none => none
    else none
  else none

/-- `RelayActor::handle_time`: decode, then fire the `+TIME` oneshot. -/
def handle_time (st : RState) (line : List Char) : Option RState :=
  (timeDecode line).map fun t => fire_oneshot st timeKey (.time t)

/-- The key computation of `RelayActor::handle_stach`:
`chars().nth(6)` / `to_digit(10)`, each `unwrap`ped (`none` is a panic). -/
def stachKey (line : List Char) : Option (List Char) :=
  ((line.get? 6).bind charToDigit).map stachKeyFmt

/-- `RelayActor::handle_stach`: decode the output index (position 6) and
state digit (position 8), then fire under `+STACH<n>`. -/
def handle_stach (st : RState) (line : List Char) : Option RState :=
  match stachKey line, (line.get? 8).bind charToDigit with
  | some key, some s => some (fire_oneshot st key (.state s))
  | _, _ => none

/-- The key computation of `RelayActor::handle_timesw`: output index from
`chars().nth(8)`, mode digit from `chars().nth(10)`, each `unwrap`ped
(`none` is a panic), formatted as `+TIMESW:<n>,<mode>`. -/
def timeswKey (line : List Char) : Option (List Char) := do
  let n ← (line.get? 8).bind charToDigit
  let m ← (line.get? 10).bind charToDigit
  pure (timeswKeyFmt n m)

/-- The mode-1 event decode of `handle_timesw`: `rsplit(',')` over the
whole line, keep fragments of length 10, `split_at(9)` each into a trimmed
time and a `parse::<u32>().unwrap()`ed state, then `reverse`.  `none` is a
parse panic. -/
def dailyEventsOfLine (line : List Char) : Option (List DailyEvent) :=
  (((splitOnChar ',' line).reverse.filter fun item => item.length = 10).mapM
      fun item => (parseU32 (item.drop 9)).map fun s => ⟨trimChars (item.take 9), s⟩).map
    List.reverse

/-- The mode-3 event decode of `handle_timesw`: fragment length 21,
`split_at(20)` into a trimmed date-time and a parsed state. -/
def customEventsOfLine (line : List Char) : Option (List CustomEvent) :=
  (((splitOnChar ',' line).reverse.filter fun item => item.length = 21).mapM
      fun item => (parseU32 (item.drop 20)).map fun s => ⟨trimChars (item.take 20), s⟩).map
    List.reverse

/-- `RelayActor::handle_timesw`: decode index and mode, build the key, and
for mode 1 / mode 3 decode the event list and fire it; any other mode does
nothing.  `none` is a panic in one of the `unwrap`s. -/
def handle_timesw (st : RState) (line : List Char) : Option RState := do
  let n ← (line.get? 8).bind charToDigit
  let m ← (line.get? 10).bind charToDigit
  let key := timeswKeyFmt n m
  match m with
  | 1 => (dailyEventsOfLine line).map fun es => fire_oneshot st key (.daily es)
  | 3 => (customEventsOfLine line).map fun es => fire_oneshot st key (.custom es)
  | _ => pure st

/-- The field decode of `RelayActor::handle_occh_all`: `split_at(10)`
(panics when the line is shorter), split the remainder on commas, and take
`chars().nth(0).unwrap().to_digit(10).unwrap()` of every fragment.
`none` is a panic. -/
def occhDecode (line : List Char) : Option (List Nat) :=
  if 10 ≤ line.length then
    (splitOnChar ',' (line.drop 10)).mapM fun c => c.head?.bind charToDigit
  else none

/-- `RelayActor::handle_occh_all`: decode the vector, compute its mask,
and when the mask differs from the stored one replace both stored vector
and mask and broadcast `{inputs: vector, connected: true}`; when equal do
nothing. -/
def handle_occh_all (st : RState) (line : List Char) : Option RState :=
  (occhDecode line).bind fun states =>
    let states_mask := computeMask states
    if states_mask ≠ st.inputs_mask then
      send_status { st with inputs_mask := states_mask, inputs := states }
        ⟨some states, true⟩
    else some st

/-- One item of the framed read stream: a decoded line or a codec error. -/
inductive CodecItem where
  | ok (line : List Char)
  | err
deriving DecidableEq, Repr

/-- `StreamHandler<Result<String, LinesCodecError>>` for `RelayActor`:
dispatch a decoded line by prefix (`+TIMESW` before `+TIME`), fall through
for unknown lines, and `ctx.stop()` on a codec error.  The result is
`none` when the dispatched handler panics, otherwise the new state paired
with whether the session was stopped.  (The `self.hb = Instant::now()`
refresh is real-time state and is not modelled.) -/
def stream_handle (st : RState) (item : CodecItem) : Option (RState × Bool) :=
  match item with
  | .err => some (st, true)
  | .ok line =>
    (if TIMESW_PATTERN.isPrefixOf line then handle_timesw st line
     else if TIME_PATTERN.isPrefixOf line then handle_time st line
     else if OCCH_ALL_PATTERN.isPrefixOf line then handle_occh_all st line
     else if STACH_PATTERN.isPrefixOf line then handle_stach st line
     else some st).map fun st1 => (st1, false)

/-- Outcome a command handler hands back to its caller.  The source's
query handlers can only produce `pending` (a `ResponseFuture` awaiting an
enqueued oneshot); `notConnected` is the immediate failure the spec
describes and is part of the type so the claim about it is statable. -/
inductive HandlerOutcome where
  | notConnected
  | pending (w : Nat)
deriving DecidableEq, Repr

/-- `Handler<GetSystemTime>`: write `AT+TIME=?` when a write channel
exists, then enqueue under `+TIME` and return the future. -/
def handleGetSystemTime (st : RState) : RState × HandlerOutcome :=
  let st1 :=
    if st.framed then
      { st with writes := st.writes ++ ["AT".data ++ TIME_PATTERN ++ "=?".data] }
    else st
  let p := enqueue_oneshot st1 getSystemTimeKey
  (p.1, .pending p.2)

/-- `Handler<GetOutput>`: write `AT+STACH<n>=?` when a write channel
exists, then enqueue under `+STACH<n>` and return the future. -/
def handleGetOutput (st : RState) (number : Nat) : RState × HandlerOutcome :=
  let st1 :=
    if st.framed then
      { st with writes := st.writes ++ ["AT".data ++ STACH_PATTERN ++ Nat.toDigits 10 number ++ "=?".data] }
    else st
  let p := enqueue_oneshot st1 (getOutputKey number)
  (p.1, .pending p.2)

/-- `Handler<GetOutputDailySchedule>`: write `AT+TIMESW=<n>,1?` when a
write channel exists, then enqueue under `+TIMESW:<n>,1`. -/
def handleGetOutputDailySchedule (st : RState) (number : Nat) : RState × HandlerOutcome :=
  let st1 :=
    if st.framed then
      { st with writes := st.writes ++ ["AT".data ++ TIMESW_PATTERN ++ '=' :: (Nat.toDigits 10 number ++ ",1?".data)] }
    else st
  let p := enqueue_oneshot st1 (getDailyKey number)
  (p.1, .pending p.2)

/-- `Handler<GetOutputCustomSchedule>`: write `AT+TIMESW=<n>,3?` when a
write channel exists, then enqueue under `+TIMESW:<n>,3`. -/
def handleGetOutputCustomSchedule (st : RState) (number : Nat) : RState × HandlerOutcome :=
  let st1 :=
    if st.framed then
      { st with writes := st.writes ++ ["AT".data ++ TIMESW_PATTERN ++ '=' :: (Nat.toDigits 10 number ++ ",3?".data)] }
    else st
  let p := enqueue_oneshot st1 (getCustomKey number)
  (p.1, .pending p.2)

/-- `Handler<RegisterForStatus>`: `id` stands for the `rng.gen::<usize>()`
draw and `ok` for whether `do_send` to the new client succeeds (the send's
`Result` is discarded by the source, so a failure is silent).  The client
is sent `{inputs: stored vector, connected: true}` and inserted. -/
def handleRegisterForStatus (st : RState) (id : Nat) (ok : Bool) : RState × Nat :=
  let msg : RelayStatus := ⟨some st.inputs, true⟩
  ({ st with
      sent := st.sent ++ (if ok then [(id, msg)] else [])
      clients := st.clients ++ [(id, ok)] }, id)

/-- A sequence of `n` `enqueue_oneshot` calls under one key, returning the
final state and the waiter ids in submission order. -/
def enqueueMany (st : RState) (k : List Char) : Nat → RState × List Nat
  | 0 => (st, [])
  | n + 1 =>
    let p := enqueue_oneshot st k
    let r := enqueueMany p.1 k n
    (r.1, p.2 :: r.2)

/-- A sequence of `fire_oneshot` calls under one key, one per value. -/
def fireMany (st : RState) (k : List Char) : List RValue → RState
  | [] => st
  | v :: vs => fireMany (fire_oneshot st k v) k vs

/-- The wire form `+STACH<n>=<s>` of a single-output reply, for one-digit
index and state. -/
def stachReplyLine (n s : Nat) : List Char :=
  '+' :: 'S' :: 'T' :: 'A' :: 'C' :: 'H' :: Nat.digitChar n :: '=' :: [Nat.digitChar s]

/-- The wire form `+TIMESW:<n>,<mode><rest>` of a schedule reply, for
one-digit index and mode (`rest` is the comma-led event payload). -/
def timeswReplyLine (n m : Nat) (rest : List Char) : List Char :=
  '+' :: 'T' :: 'I' :: 'M' :: 'E' :: 'S' :: 'W' :: ':' :: Nat.digitChar n :: ',' :: Nat.digitChar m :: rest

theorem maskSpec_eq_sum (l : List Nat) :
    maskSpec l = ∑ i ∈ Finset.range l.length, l.getD i 0 * 2 ^ i := by
  induction l with
  | nil => simp [maskSpec]
  | cons x xs ih =>
    rw [maskSpec, ih, List.length_cons, Finset.sum_range_succ']
    simp only [List.getD_cons_succ, List.getD_cons_zero, pow_zero, mul_one, pow_succ]
    rw [Finset.mul_sum, add_comm]
    congr 1
    refine Finset.sum_congr rfl fun i _ => by ring

theorem step_mod (a x : Nat) :
    (2 * (a % 2 ^ 32) + x) % 2 ^ 32 = (2 * a + x) % 2 ^ 32 := by
  have h : (2 : ℕ) ^ 32 = 4294967296 := by norm_num
  rw [h]
  omega

theorem foldl_mod_collapse (l : List Nat) (a : Nat) :
    l.foldl (fun m x => (2 * m + x) % 2 ^ 32) (a % 2 ^ 32)
      = (l.foldl (fun m x => 2 * m + x) a) % 2 ^ 32 := by
  induction l generalizing a with
  | nil => simp
  | cons x xs ih =>
    simp only [List.foldl_cons]
    rw [step_mod]
    exact ih (2 * a + x)

theorem foldl_horner_reverse (l : List Nat) (a : Nat) :
    l.reverse.foldl (fun m x => 2 * m + x) a = a * 2 ^ l.length + maskSpec l := by
  induction l generalizing a with
  | nil => simp [maskSpec]
  | cons x xs ih =>
    rw [List.reverse_cons, List.foldl_append, ih]
    simp only [List.foldl_cons, List.foldl_nil, maskSpec, List.length_cons]
    ring

theorem computeMask_eq_maskSpec_mod (l : List Nat) :
    computeMask l = maskSpec l % 2 ^ 32 := by
  have h0 : (0 : Nat) = 0 % 2 ^ 32 := by norm_num
  rw [computeMask, h0, foldl_mod_collapse, foldl_horner_reverse]
  simp

/-- Claim C9: for every decoded input vector, the Input Bitmask computed by
the push handler equals the sum over `i` of `inputs[i] << i` — the
least-significant bit corresponds to the first input and the mask is
value-correct (stated under the no-`u32`-overflow side condition, the only
regime the claim's formula itself is well defined in). -/
theorem relay_c9_mask_value_correct (states : List Nat)
    (h : (∑ i ∈ Finset.range states.length, states.getD i 0 * 2 ^ i) < 2 ^ 32) :
    computeMask states = ∑ i ∈ Finset.range states.length, states.getD i 0 * 2 ^ i := by
  rw [computeMask_eq_maskSpec_mod, maskSpec_eq_sum]
  exact Nat.mod_eq_of_lt h

/-- Witness for C9 at the concrete vector `[0, 1, 0, 0]` (mask `2`). -/
theorem relay_c9_mask_value_correct_witness :
    computeMask [0, 1, 0, 0] = ∑ i ∈ Finset.range (List.length [0, 1, 0, 0]), [0, 1, 0, 0].getD i 0 * 2 ^ i :=
  relay_c9_mask_value_correct [0, 1, 0, 0] (by decide)

theorem getQ_setQ_self (k : List Char) (q : List Nat) (t : List (List Char × List Nat)) :
    getQ k (setQ k q t) = some q := by
  induction t with
  | nil => simp [getQ, setQ]
  | cons p t ih =>
    obtain ⟨k', q'⟩ := p
    by_cases h : k = k'
    · simp [getQ, setQ, h]
    · simp [getQ, setQ, h, ih]

theorem getQ_append_self (k : List Char) (q : List Nat) (t : List (List Char × List Nat))
    (h : getQ k t = none) : getQ k (t ++ [(k, q)]) = some q := by
  induction t with
  | nil => simp [getQ]
  | cons p t ih =>
    obtain ⟨k', q'⟩ := p
    by_cases hk : k = k'
    · simp [getQ, hk] at h
    · simp only [List.cons_append, getQ, if_neg hk] at h ⊢
      exact ih h

theorem enqueue_oneshot_getQ (st : RState) (k : List Char) :
    getQ k (enqueue_oneshot st k).1.oneshots
      = some ((getQ k st.oneshots).getD [] ++ [st.nextWaiter]) := by
  unfold enqueue_oneshot
  cases h : getQ k st.oneshots with
  | some q => simp [h, getQ_setQ_self]
  | none => simp [h, getQ_append_self k _ _ h]

theorem enqueue_oneshot_fired (st : RState) (k : List Char) :
    (enqueue_oneshot st k).1.fired = st.fired := rfl

theorem enqueue_oneshot_snd (st : RState) (k : List Char) :
    (enqueue_oneshot st k).2 = st.nextWaiter := rfl

theorem enqueue_oneshot_writes (st : RState) (k : List Char) :
    (enqueue_oneshot st k).1.writes = st.writes := rfl

theorem fire_oneshot_cons (st : RState) (k : List Char) (v : RValue) (w : Nat) (q : List Nat)
    (h : getQ k st.oneshots = some (w :: q)) :
    fire_oneshot st k v
      = { st with oneshots := setQ k q st.oneshots, fired := st.fired ++ [(k, w, v)] } := by
  simp [fire_oneshot, h]

theorem enqueueMany_count (k : List Char) : ∀ (n : Nat) (st : RState),
    (enqueueMany st k n).2.length = n := by
  intro n
  induction n with
  | zero => intro st; simp [enqueueMany]
  | succ m ih => intro st; simp [enqueueMany, ih]

theorem enqueueMany_queue (k : List Char) : ∀ (n : Nat) (st : RState) (q : List Nat),
    getQ k st.oneshots = some q →
    getQ k (enqueueMany st k n).1.oneshots = some (q ++ (enqueueMany st k n).2) ∧
    (enqueueMany st k n).1.fired = st.fired := by
  intro n
  induction n with
  | zero => intro st q h; simp [enqueueMany, h]
  | succ m ih =>
    intro st q h
    simp only [enqueueMany]
    have h1 : getQ k (enqueue_oneshot st k).1.oneshots = some (q ++ [st.nextWaiter]) := by
      rw [enqueue_oneshot_getQ, h]
      rfl
    obtain ⟨ha, hb⟩ := ih (enqueue_oneshot st k).1 (q ++ [st.nextWaiter]) h1
    refine ⟨?_, ?_⟩
    · rw [ha]
      simp [enqueue_oneshot_snd]
    · rw [hb, enqueue_oneshot_fired]

theorem fireMany_fifo (k : List Char) : ∀ (vs : List RValue) (st : RState) (q : List Nat),
    getQ k st.oneshots = some q → vs.length ≤ q.length →
    (fireMany st k vs).fired = st.fired ++ List.zipWith (fun w v => (k, w, v)) q vs := by
  intro vs
  induction vs with
  | nil => intro st q h hle; simp [fireMany]
  | cons v vs ih =>
    intro st q h hle
    cases q with
    | nil => simp at hle
    | cons w q' =>
      simp only [fireMany]
      rw [fire_oneshot_cons st k v w q' h]
      rw [ih _ q' (by simpa using getQ_setQ_self k q' st.oneshots)
        (by simpa using Nat.le_of_succ_le_succ (by simpa using hle))]
      simp

/-- Claim C2: for every key `k`, starting from a state with no pending
queue under `k`, a sequence of `n` `enqueue_oneshot(k)` calls followed by
at most `n` `fire_oneshot(k, v)` calls delivers the `i`-th fired value to
the waiter created by the `i`-th enqueue — FIFO per key. -/
theorem relay_c2_fifo (st : RState) (k : List Char) (n : Nat) (vs : List RValue)
    (hempty : getQ k st.oneshots = none) (hlen : vs.length ≤ n) :
    (fireMany (enqueueMany st k n).1 k vs).fired
      = st.fired ++ List.zipWith (fun w v => (k, w, v)) (enqueueMany st k n).2 vs := by
  cases n with
  | zero =>
    have hvs : vs = [] := List.eq_nil_of_length_eq_zero (Nat.le_zero.mp hlen)
    subst hvs
    simp [enqueueMany, fireMany]
  | succ m =>
    simp only [enqueueMany]
    have h1 : getQ k (enqueue_oneshot st k).1.oneshots = some [st.nextWaiter] := by
      rw [enqueue_oneshot_getQ, hempty]
      rfl
    obtain ⟨ha, hb⟩ := enqueueMany_queue k m (enqueue_oneshot st k).1 [st.nextWaiter] h1
    rw [fireMany_fifo k vs _ _ ha
      (by
        simp only [List.length_append, List.length_singleton, enqueueMany_count]
        omega)]
    rw [hb, enqueue_oneshot_fired]
    simp [enqueue_oneshot_snd]

/-- Witness for C2: two get-output(1) queries then two `+STACH1` replies;
the first reply reaches waiter 0, the second waiter 1. -/
theorem relay_c2_fifo_witness :
    (fireMany (enqueueMany (RelayActor.new [] 12345 4 4) (getOutputKey 1) 2).1 (getOutputKey 1)
        [RValue.state 0, RValue.state 1]).fired
      = (RelayActor.new [] 12345 4 4).fired
        ++ List.zipWith (fun w v => (getOutputKey 1, w, v))
            (enqueueMany (RelayActor.new [] 12345 4 4) (getOutputKey 1) 2).2
            [RValue.state 0, RValue.state 1] :=
  relay_c2_fifo (RelayActor.new [] 12345 4 4) (getOutputKey 1) 2 [RValue.state 0, RValue.state 1]
    (by decide) (by decide)

/-- Claim C1 counterexample: a freshly constructed actor has no write
channel, yet the get-time handler does not fail with NotConnected — it
enqueues a waiter under `+TIME` and returns a pending future. -/
theorem relay_c1_counterexample :
    (RelayActor.new [] 12345 4 4).framed = false ∧
    (handleGetSystemTime (RelayActor.new [] 12345 4 4)).2 ≠ HandlerOutcome.notConnected ∧
    getQ getSystemTimeKey (handleGetSystemTime (RelayActor.new [] 12345 4 4)).1.oneshots
      = some [0] := by decide

/-- Claim C1 (amended): when no write channel exists, every query handler
(get-time, get-output, get-daily, get-custom) skips the device write but
still appends a waiter to its reply-key's queue and returns a pending
future — the request can only fail later by timeout, never immediately
with NotConnected. -/
theorem relay_c1_no_immediate_failure (st : RState) (n : Nat) (h : st.framed = false) :
    ((handleGetSystemTime st).2 = HandlerOutcome.pending st.nextWaiter ∧
      (handleGetSystemTime st).1.writes = st.writes ∧
      getQ getSystemTimeKey (handleGetSystemTime st).1.oneshots
        = some ((getQ getSystemTimeKey st.oneshots).getD [] ++ [st.nextWaiter])) ∧
    ((handleGetOutput st n).2 = HandlerOutcome.pending st.nextWaiter ∧
      (handleGetOutput st n).1.writes = st.writes ∧
      getQ (getOutputKey n) (handleGetOutput st n).1.oneshots
        = some ((getQ (getOutputKey n) st.oneshots).getD [] ++ [st.nextWaiter])) ∧
    ((handleGetOutputDailySchedule st n).2 = HandlerOutcome.pending st.nextWaiter ∧
      (handleGetOutputDailySchedule st n).1.writes = st.writes ∧
      getQ (getDailyKey n) (handleGetOutputDailySchedule st n).1.oneshots
        = some ((getQ (getDailyKey n) st.oneshots).getD [] ++ [st.nextWaiter])) ∧
    ((handleGetOutputCustomSchedule st n).2 = HandlerOutcome.pending st.nextWaiter ∧
      (handleGetOutputCustomSchedule st n).1.writes = st.writes ∧
      getQ (getCustomKey n) (handleGetOutputCustomSchedule st n).1.oneshots
        = some ((getQ (getCustomKey n) st.oneshots).getD [] ++ [st.nextWaiter])) := by
  refine ⟨⟨?_, ?_, ?_⟩, ⟨?_, ?_, ?_⟩, ⟨?_, ?_, ?_⟩, ⟨?_, ?_, ?_⟩⟩ <;>
    simp [handleGetSystemTime, handleGetOutput, handleGetOutputDailySchedule,
      handleGetOutputCustomSchedule, h, enqueue_oneshot_snd, enqueue_oneshot_getQ,
      enqueue_oneshot_writes]

/-- Witness for the amended C1 at a fresh actor and output 2. -/
theorem relay_c1_no_immediate_failure_witness :
    getQ getSystemTimeKey
        (handleGetSystemTime (RelayActor.new [] 12345 4 4)).1.oneshots
      = some ((getQ getSystemTimeKey (RelayActor.new [] 12345 4 4).oneshots).getD []
          ++ [(RelayActor.new [] 12345 4 4).nextWaiter]) :=
  (relay_c1_no_immediate_failure (RelayActor.new [] 12345 4 4) 2 rfl).1.2.2

theorem charToDigit_digitChar : ∀ n : Nat, n < 10 → charToDigit (Nat.digitChar n) = some n := by
  decide

/-- Claim C3: the reply-key each query handler enqueues under is the key
the frame parser computes for the corresponding reply line — `+STACH<n>`
for single-output replies, `+TIMESW:<n>,1` / `+TIMESW:<n>,3` for
daily/custom schedule replies, and `+TIME` for time replies. -/
theorem relay_c3_keys (n s : Nat) (rest : List Char) (hn : n < 10) (_hs : s < 10) :
    stachKey (stachReplyLine n s) = some (getOutputKey n) ∧
    timeswKey (timeswReplyLine n 1 rest) = some (getDailyKey n) ∧
    timeswKey (timeswReplyLine n 3 rest) = some (getCustomKey n) ∧
    timeKey = getSystemTimeKey := by
  have hd : charToDigit (Nat.digitChar n) = some n := charToDigit_digitChar n hn
  have hd1 : charToDigit (Nat.digitChar 1) = some 1 := by decide
  have hd3 : charToDigit (Nat.digitChar 3) = some 3 := by decide
  have e6 : (stachReplyLine n s)[6]? = some (Nat.digitChar n) := by
    rw [← List.get?_eq_getElem?]; rfl
  have e8 : ∀ m r, (timeswReplyLine n m r)[8]? = some (Nat.digitChar n) := by
    intro m r
    rw [← List.get?_eq_getElem?]; rfl
  have e10 : ∀ m r, (timeswReplyLine n m r)[10]? = some (Nat.digitChar m) := by
    intro m r
    rw [← List.get?_eq_getElem?]; rfl
  refine ⟨?_, ?_, ?_, rfl⟩
  · simp [stachKey, e6, hd, getOutputKey]
  · simp [timeswKey, e8, e10, hd, hd1, getDailyKey]
  · simp [timeswKey, e8, e10, hd, hd3, getCustomKey]

/-- Witness for C3 at output 2, state 1, empty payload. -/
theorem relay_c3_keys_witness :
    stachKey (stachReplyLine 2 1) = some (getOutputKey 2) ∧
    timeswKey (timeswReplyLine 2 1 []) = some (getDailyKey 2) ∧
    timeswKey (timeswReplyLine 2 3 []) = some (getCustomKey 2) ∧
    timeKey = getSystemTimeKey :=
  relay_c3_keys 2 1 [] (by decide) (by decide)

/-- Claim C4 counterexample: with subscribers `[(1, failing), (2, healthy)]`
in iteration order, the broadcast loop `unwrap`s the failed send and
panics: subscriber 2 receives nothing and `send_status` aborts instead of
logging and continuing. -/
theorem relay_c4_counterexample :
    do_send_all ⟨none, false⟩ [(1, false), (2, true)] = ([], true) ∧
    send_status { RelayActor.new [] 12345 4 4 with clients := [(1, false), (2, true)] }
        ⟨none, false⟩ = none := by decide

/-- Claim C4 (amended): a send failure to one subscriber panics the
fan-out loop (`unwrap` on `do_send`): subscribers before the failing one
in iteration order are delivered to, the failing one and every later one
receive nothing, and `send_status` aborts the session instead of logging
and continuing. -/
theorem relay_c4_fanout_panics (pre post : List (Nat × Bool)) (id : Nat) (m : RelayStatus)
    (h : ∀ c ∈ pre, c.2 = true) :
    do_send_all m (pre ++ (id, false) :: post) = (pre.map fun c => (c.1, m), true) := by
  induction pre with
  | nil => simp [do_send_all]
  | cons c t ih =>
    obtain ⟨cid, ok⟩ := c
    have hok : ok = true := h (cid, ok) (by simp)
    subst hok
    have ih' := ih fun c hc => h c (by simp [hc])
    simp only [List.cons_append, do_send_all, if_true, List.append_eq, ih', List.map_cons]

/-- Witness for the amended C4: one healthy subscriber ahead of the
failing one is served, the one behind it is not. -/
theorem relay_c4_fanout_panics_witness :
    do_send_all ⟨none, false⟩ ([(7, true)] ++ (1, false) :: [(2, true)])
      = ([(7, ⟨none, false⟩)], true) :=
  relay_c4_fanout_panics [(7, true)] [(2, true)] 1 ⟨none, false⟩ (by decide)

/-- Claim C5 counterexample: the line `+TIME:x` matches the `+TIME` prefix
but is too short to decode (`split_at(20)` panics); the stream handler
panics (`none`) instead of logging, dropping the frame and continuing. -/
theorem relay_c5_counterexample :
    TIME_PATTERN.isPrefixOf ("+TIME:x".data) = true ∧
    stream_handle (RelayActor.new [] 12345 4 4) (CodecItem.ok ("+TIME:x".data)) = none := by
  decide

/-- Claim C5 (amended): an inbound line matching a known prefix whose
field decode fails makes the handler panic — the stream handler aborts
(`none`) rather than logging and dropping the frame — across all four
families and both mechanisms: a `+TIME` line too short for the
20-character date-time (out-of-bounds `split_at`) or with an unparseable
day-of-week (`parse` unwrap), a `+TIMESW` line with a non-digit at
position 8 or position 10, a `+STACH` line with a non-digit at position 6
or position 8 (`to_digit` unwrap), and a `+OCCH_ALL` line whose fragment
decode fails; an I/O codec error, by contrast, stops the session in an
orderly way via `ctx.stop()`. -/
theorem relay_c5_decode_panics (st : RState)
    (r1 r2 r3 r4 r5 r6 r7 : List Char) (c3 c4a c4b c5 c6a c6b : Char)
    (h1 : r1.length < 20)
    (h2 : 20 ≤ r2.length) (h2p : parseU8 (r2.drop 20) = none)
    (h3 : charToDigit c3 = none)
    (h4 : charToDigit c4b = none)
    (h5 : charToDigit c5 = none)
    (h6 : charToDigit c6b = none)
    (h7 : occhDecode ("+OCCH_ALL:".data ++ r7) = none) :
    stream_handle st (CodecItem.ok ("+TIME:".data ++ r1)) = none ∧
    stream_handle st (CodecItem.ok ("+TIME:".data ++ r2)) = none ∧
    stream_handle st (CodecItem.ok ("+TIMESW:".data ++ c3 :: r3)) = none ∧
    stream_handle st (CodecItem.ok ("+TIMESW:".data ++ c4a :: ',' :: c4b :: r4)) = none ∧
    stream_handle st (CodecItem.ok ("+STACH".data ++ c5 :: r5)) = none ∧
    stream_handle st (CodecItem.ok ("+STACH".data ++ c6a :: '=' :: c6b :: r6)) = none ∧
    stream_handle st (CodecItem.ok ("+OCCH_ALL:".data ++ r7)) = none ∧
    stream_handle st CodecItem.err = some (st, true) := by
  refine ⟨?_, ?_, ?_, ?_, ?_, ?_, ?_, rfl⟩
  · have e : ("+TIME:".data ++ r1) = '+' :: 'T' :: 'I' :: 'M' :: 'E' :: ':' :: r1 := rfl
    have hA : TIMESW_PATTERN.isPrefixOf ('+' :: 'T' :: 'I' :: 'M' :: 'E' :: ':' :: r1) = false := rfl
    have hB : TIME_PATTERN.isPrefixOf ('+' :: 'T' :: 'I' :: 'M' :: 'E' :: ':' :: r1) = true := rfl
    have h20 : ¬ (20 ≤ r1.length) := by omega
    rw [e]
    simp [stream_handle, hA, hB, handle_time, timeDecode, h20]
  · have e : ("+TIME:".data ++ r2) = '+' :: 'T' :: 'I' :: 'M' :: 'E' :: ':' :: r2 := rfl
    have hA : TIMESW_PATTERN.isPrefixOf ('+' :: 'T' :: 'I' :: 'M' :: 'E' :: ':' :: r2) = false := rfl
    have hB : TIME_PATTERN.isPrefixOf ('+' :: 'T' :: 'I' :: 'M' :: 'E' :: ':' :: r2) = true := rfl
    rw [e]
    simp [stream_handle, hA, hB, handle_time, timeDecode, h2, h2p]
  · have e : ("+TIMESW:".data ++ c3 :: r3)
        = '+' :: 'T' :: 'I' :: 'M' :: 'E' :: 'S' :: 'W' :: ':' :: c3 :: r3 := rfl
    have hC : TIMESW_PATTERN.isPrefixOf
        ('+' :: 'T' :: 'I' :: 'M' :: 'E' :: 'S' :: 'W' :: ':' :: c3 :: r3) = true := rfl
    have e8 : ('+' :: 'T' :: 'I' :: 'M' :: 'E' :: 'S' :: 'W' :: ':' :: c3 :: r3 : List Char)[8]?
        = some c3 := by
      rw [← List.get?_eq_getElem?]; rfl
    rw [e]
    simp [stream_handle, hC, handle_timesw, e8, h3]
  · have e : ("+TIMESW:".data ++ c4a :: ',' :: c4b :: r4)
        = '+' :: 'T' :: 'I' :: 'M' :: 'E' :: 'S' :: 'W' :: ':' :: c4a :: ',' :: c4b :: r4 := rfl
    have hC : TIMESW_PATTERN.isPrefixOf
        ('+' :: 'T' :: 'I' :: 'M' :: 'E' :: 'S' :: 'W' :: ':' :: c4a :: ',' :: c4b :: r4) = true := rfl
    have e8 : ('+' :: 'T' :: 'I' :: 'M' :: 'E' :: 'S' :: 'W' :: ':' :: c4a :: ',' :: c4b :: r4 : List Char)[8]?
        = some c4a := by
      rw [← List.get?_eq_getElem?]; rfl
    have e10 : ('+' :: 'T' :: 'I' :: 'M' :: 'E' :: 'S' :: 'W' :: ':' :: c4a :: ',' :: c4b :: r4 : List Char)[10]?
        = some c4b := by
      rw [← List.get?_eq_getElem?]; rfl
    rw [e]
    rcases hc : charToDigit c4a with _ | n
    · simp [stream_handle, hC, handle_timesw, e8, hc]
    · simp [stream_handle, hC, handle_timesw, e8, hc, e10, h4]
  · have e : ("+STACH".data ++ c5 :: r5)
        = '+' :: 'S' :: 'T' :: 'A' :: 'C' :: 'H' :: c5 :: r5 := rfl
    have hA : TIMESW_PATTERN.isPrefixOf ('+' :: 'S' :: 'T' :: 'A' :: 'C' :: 'H' :: c5 :: r5) = false := rfl
    have hB : TIME_PATTERN.isPrefixOf ('+' :: 'S' :: 'T' :: 'A' :: 'C' :: 'H' :: c5 :: r5) = false := rfl
    have hO : OCCH_ALL_PATTERN.isPrefixOf ('+' :: 'S' :: 'T' :: 'A' :: 'C' :: 'H' :: c5 :: r5) = false := rfl
    have hS : STACH_PATTERN.isPrefixOf ('+' :: 'S' :: 'T' :: 'A' :: 'C' :: 'H' :: c5 :: r5) = true := rfl
    have e6 : ('+' :: 'S' :: 'T' :: 'A' :: 'C' :: 'H' :: c5 :: r5 : List Char)[6]? = some c5 := by
      rw [← List.get?_eq_getElem?]; rfl
    rw [e]
    simp [stream_handle, hA, hB, hO, hS, handle_stach, stachKey, e6, h5]
  · have e : ("+STACH".data ++ c6a :: '=' :: c6b :: r6)
        = '+' :: 'S' :: 'T' :: 'A' :: 'C' :: 'H' :: c6a :: '=' :: c6b :: r6 := rfl
    have hA : TIMESW_PATTERN.isPrefixOf ('+' :: 'S' :: 'T' :: 'A' :: 'C' :: 'H' :: c6a :: '=' :: c6b :: r6) = false := rfl
    have hB : TIME_PATTERN.isPrefixOf ('+' :: 'S' :: 'T' :: 'A' :: 'C' :: 'H' :: c6a :: '=' :: c6b :: r6) = false := rfl
    have hO : OCCH_ALL_PATTERN.isPrefixOf ('+' :: 'S' :: 'T' :: 'A' :: 'C' :: 'H' :: c6a :: '=' :: c6b :: r6) = false := rfl
    have hS : STACH_PATTERN.isPrefixOf ('+' :: 'S' :: 'T' :: 'A' :: 'C' :: 'H' :: c6a :: '=' :: c6b :: r6) = true := rfl
    have e6 : ('+' :: 'S' :: 'T' :: 'A' :: 'C' :: 'H' :: c6a :: '=' :: c6b :: r6 : List Char)[6]?
        = some c6a := by
      rw [← List.get?_eq_getElem?]; rfl
    have e8 : ('+' :: 'S' :: 'T' :: 'A' :: 'C' :: 'H' :: c6a :: '=' :: c6b :: r6 : List Char)[8]?
        = some c6b := by
      rw [← List.get?_eq_getElem?]; rfl
    rw [e]
    rcases hc : charToDigit c6a with _ | n
    · simp [stream_handle, hA, hB, hO, hS, handle_stach, stachKey, e6, hc]
    · simp [stream_handle, hA, hB, hO, hS, handle_stach, stachKey, e6, hc, e8, h6]
  · have e : ("+OCCH_ALL:".data ++ r7)
        = '+' :: 'O' :: 'C' :: 'C' :: 'H' :: '_' :: 'A' :: 'L' :: 'L' :: ':' :: r7 := rfl
    have hA : TIMESW_PATTERN.isPrefixOf ('+' :: 'O' :: 'C' :: 'C' :: 'H' :: '_' :: 'A' :: 'L' :: 'L' :: ':' :: r7) = false := rfl
    have hB : TIME_PATTERN.isPrefixOf ('+' :: 'O' :: 'C' :: 'C' :: 'H' :: '_' :: 'A' :: 'L' :: 'L' :: ':' :: r7) = false := rfl
    have hO : OCCH_ALL_PATTERN.isPrefixOf ('+' :: 'O' :: 'C' :: 'C' :: 'H' :: '_' :: 'A' :: 'L' :: 'L' :: ':' :: r7) = true := rfl
    rw [e] at h7 ⊢
    simp [stream_handle, hA, hB, hO, handle_occh_all, h7]

/-- Witness for the amended C5 at concrete malformed lines from every
family: `+TIME:x`, `+TIME:` with an unparseable day-of-week, `+TIMESW`
with a non-digit at position 8 and at position 10, `+STACH` with a
non-digit at position 6 and at position 8, and `+OCCH_ALL:x,1`. -/
theorem relay_c5_decode_panics_witness :
    stream_handle (RelayActor.new [] 12345 4 4) (CodecItem.ok ("+TIME:".data ++ "x".data)) = none ∧
    stream_handle (RelayActor.new [] 12345 4 4)
      (CodecItem.ok ("+TIME:".data ++ "2020-01-02 11:22:33 Q".data)) = none ∧
    stream_handle (RelayActor.new [] 12345 4 4)
      (CodecItem.ok ("+TIMESW:".data ++ 'x' :: ",1,09:00:00 1".data)) = none ∧
    stream_handle (RelayActor.new [] 12345 4 4)
      (CodecItem.ok ("+TIMESW:".data ++ '2' :: ',' :: 'x' :: [])) = none ∧
    stream_handle (RelayActor.new [] 12345 4 4)
      (CodecItem.ok ("+STACH".data ++ 'x' :: "=1".data)) = none ∧
    stream_handle (RelayActor.new [] 12345 4 4)
      (CodecItem.ok ("+STACH".data ++ '1' :: '=' :: 'x' :: [])) = none ∧
    stream_handle (RelayActor.new [] 12345 4 4)
      (CodecItem.ok ("+OCCH_ALL:".data ++ "x,1".data)) = none ∧
    stream_handle (RelayActor.new [] 12345 4 4) CodecItem.err
      = some (RelayActor.new [] 12345 4 4, true) :=
  relay_c5_decode_panics (RelayActor.new [] 12345 4 4)
    "x".data "2020-01-02 11:22:33 Q".data ",1,09:00:00 1".data [] "=1".data [] "x,1".data
    'x' '2' 'x' 'x' '1' 'x'
    (by decide) (by decide) (by decide) (by decide) (by decide) (by decide) (by decide)
    (by decide)

/-- Claim C6: for every decoded `+OCCH_ALL` push, the handler leaves the
state untouched (no broadcast, same vector, same mask, same subscriber
registry) when the computed mask equals the stored one, and whenever the
handler completes, a Status broadcast happened if and only if the
computed mask differed from the stored one. -/
theorem relay_c6_change_detector (st : RState) (line : List Char) (states : List Nat)
    (hdec : occhDecode line = some states) :
    (computeMask states = st.inputs_mask → handle_occh_all st line = some st) ∧
    ∀ st', handle_occh_all st line = some st' →
      ((st'.broadcasts ≠ st.broadcasts) ↔ computeMask states ≠ st.inputs_mask) := by
  constructor
  · intro hm
    simp [handle_occh_all, hdec, hm]
  · intro st' hst'
    by_cases hm : computeMask states = st.inputs_mask
    · have hst : st = st' := by
        simpa [handle_occh_all, hdec, hm] using hst'
      subst hst
      simp [hm]
    · simp only [handle_occh_all, hdec, Option.some_bind] at hst'
      rw [if_pos hm] at hst'
      simp only [send_status] at hst'
      rcases hp : (do_send_all ⟨some states, true⟩ st.clients).2 with _ | _
      · rw [hp] at hst'
        simp only [Bool.false_eq_true, if_false, Option.some_inj] at hst'
        subst hst'
        simp only [ne_eq, hm, not_false_eq_true, iff_true]
        intro habs
        have hlen := congrArg List.length habs
        simp at hlen
      · rw [hp] at hst'
        simp at hst'

/-- Witness for C6: a push whose mask equals the stored mask leaves the
actor unchanged. -/
theorem relay_c6_change_detector_witness :
    handle_occh_all { RelayActor.new [] 12345 4 4 with inputs_mask := 0 }
        ("+OCCH_ALL:0,0,0,0".data)
      = some { RelayActor.new [] 12345 4 4 with inputs_mask := 0 } :=
  (relay_c6_change_detector { RelayActor.new [] 12345 4 4 with inputs_mask := 0 }
      ("+OCCH_ALL:0,0,0,0".data) [0, 0, 0, 0] (by decide)).1 (by decide)

theorem maskSpec_lt_two_pow (v : List Nat) (h : ∀ x ∈ v, x ≤ 1) :
    maskSpec v < 2 ^ v.length := by
  induction v with
  | nil => simp [maskSpec]
  | cons x xs ih =>
    have hx : x ≤ 1 := h x (by simp)
    have hxs := ih fun y hy => h y (by simp [hy])
    simp only [maskSpec, List.length_cons, pow_succ]
    omega

/-- Claim C7 counterexample: with `inputs_number = 8` the construction
sentinel `0xff` is reachable — the all-ones vector of length 8 computes
mask `255`, so the first parsed push is swallowed: no broadcast, no state
change. -/
theorem relay_c7_counterexample :
    (RelayActor.new [] 12345 8 4).inputs_mask = 0xff ∧
    occhDecode ("+OCCH_ALL:1,1,1,1,1,1,1,1".data) = some [1, 1, 1, 1, 1, 1, 1, 1] ∧
    computeMask [1, 1, 1, 1, 1, 1, 1, 1] = 0xff ∧
    handle_occh_all (RelayActor.new [] 12345 8 4) ("+OCCH_ALL:1,1,1,1,1,1,1,1".data)
      = some (RelayActor.new [] 12345 8 4) := by decide

/-- Claim C7 (amended): the sentinel `0xff` stored at construction is
unreachable only for vectors of 0/1 input states with at most 7 entries
(in particular for the default `inputs_number = 4`): for those, the first
decoded push always broadcasts.  For `inputs_number ≥ 8` the sentinel is
reachable (all-ones on the first 8 inputs) and the first push may be
swallowed. -/
theorem relay_c7_sentinel (host : List Char) (port N O : Nat) (line : List Char)
    (v : List Nat) (hdec : occhDecode line = some v) (h01 : ∀ x ∈ v, x ≤ 1)
    (hlen : v.length ≤ 7) :
    ∃ st', handle_occh_all (RelayActor.new host port N O) line = some st' ∧
      st'.broadcasts = [⟨some v, true⟩] ∧ st'.inputs = v ∧
      st'.inputs_mask = computeMask v := by
  have hlt : maskSpec v < 128 := by
    calc maskSpec v < 2 ^ v.length := maskSpec_lt_two_pow v h01
    _ ≤ 2 ^ 7 := Nat.pow_le_pow_right (by norm_num) hlen
    _ = 128 := by norm_num
  have hmask : computeMask v = maskSpec v := by
    rw [computeMask_eq_maskSpec_mod]
    exact Nat.mod_eq_of_lt (lt_trans hlt (by norm_num))
  have hne : computeMask v ≠ (RelayActor.new host port N O).inputs_mask := by
    rw [hmask]
    show maskSpec v ≠ 0xff
    omega
  refine ⟨{ RelayActor.new host port N O with
      inputs := v
      inputs_mask := computeMask v
      broadcasts := [⟨some v, true⟩] }, ?_, rfl, rfl, rfl⟩
  simp only [handle_occh_all, hdec, Option.some_bind]
  rw [if_pos hne]
  rfl

/-- Witness for the amended C7: the first push `0,1,0,0` on a default
4-input actor broadcasts. -/
theorem relay_c7_sentinel_witness :
    ∃ st', handle_occh_all (RelayActor.new [] 12345 4 4) ("+OCCH_ALL:0,1,0,0".data)
        = some st' ∧
      st'.broadcasts = [⟨some [0, 1, 0, 0], true⟩] ∧ st'.inputs = [0, 1, 0, 0] ∧
      st'.inputs_mask = computeMask [0, 1, 0, 0] :=
  relay_c7_sentinel [] 12345 4 4 ("+OCCH_ALL:0,1,0,0".data) [0, 1, 0, 0]
    (by decide) (by decide) (by decide)

/-- Claim C8 counterexample: on a default 4-input actor, the decoded frame
`+OCCH_ALL:1,1` has only two fragments, yet it is not discarded: the
stored vector is replaced by `[1, 1]`, of length 2 ≠ `inputs_number` 4. -/
theorem relay_c8_counterexample :
    (RelayActor.new [] 12345 4 4).inputs_number = 4 ∧
    ((handle_occh_all (RelayActor.new [] 12345 4 4) ("+OCCH_ALL:1,1".data)).map
        fun st' => st'.inputs) = some [1, 1] ∧
    ((handle_occh_all (RelayActor.new [] 12345 4 4) ("+OCCH_ALL:1,1".data)).map
        fun st' => st'.inputs.length) = some 2 := by decide

/-- Claim C8 (amended): the handler never checks the decoded fragment
count against `inputs_number`: a frame whose first-character-digit decode
fails panics the handler (it is not discarded-and-logged), and a frame
that decodes and changes the mask replaces the stored vector by the
decoded list whatever its length. -/
theorem relay_c8_no_length_check (st : RState) (line : List Char) :
    (occhDecode line = none → handle_occh_all st line = none) ∧
    ∀ st', handle_occh_all st line = some st' →
      ∃ states, occhDecode line = some states ∧
        ((computeMask states = st.inputs_mask ∧ st' = st) ∨
         (computeMask states ≠ st.inputs_mask ∧ st'.inputs = states)) := by
  constructor
  · intro h
    simp [handle_occh_all, h]
  · intro st' h
    cases hdec : occhDecode line with
    | none => simp [handle_occh_all, hdec] at h
    | some states =>
      refine ⟨states, rfl, ?_⟩
      simp only [handle_occh_all, hdec, Option.some_bind] at h
      by_cases hm : computeMask states = st.inputs_mask
      · rw [if_neg (by simpa using hm)] at h
        simp only [Option.some_inj] at h
        exact Or.inl ⟨hm, h.symm⟩
      · refine Or.inr ⟨hm, ?_⟩
        rw [if_pos hm] at h
        simp only [send_status] at h
        rcases hp : (do_send_all ⟨some states, true⟩ st.clients).2 with _ | _
        · rw [hp] at h
          simp only [Bool.false_eq_true, if_false, Option.some_inj] at h
          subst h
          rfl
        · rw [hp] at h
          simp at h

/-- Witness for the amended C8: a fragment with a non-digit first
character panics the handler. -/
theorem relay_c8_no_length_check_witness :
    handle_occh_all (RelayActor.new [] 12345 4 4) ("+OCCH_ALL:x,1".data) = none :=
  (relay_c8_no_length_check (RelayActor.new [] 12345 4 4) ("+OCCH_ALL:x,1".data)).1
    (by decide)

/-- Claim C10 counterexample: on a freshly constructed actor the session's
connection state is `false`, yet the status sent to a newly registered
subscriber says `connected = true` — the message does not carry the
session's current connection state. -/
theorem relay_c10_counterexample :
    (RelayActor.new [] 12345 4 4).connected = false ∧
    (handleRegisterForStatus (RelayActor.new [] 12345 4 4) 7 true).1.sent
      = [(7, ⟨some [0, 0, 0, 0], true⟩)] := by decide

/-- Claim C10 (amended): register-for-status inserts the handle under the
drawn id, returns that id, and immediately sends the new subscriber
`{inputs: currently stored vector, connected: true}` — with `connected`
hardcoded to `true` regardless of the session's actual connection
state (and silently dropped if the subscriber is dead). -/
theorem relay_c10_register (st : RState) (id : Nat) (ok : Bool) :
    (handleRegisterForStatus st id ok).2 = id ∧
    (handleRegisterForStatus st id ok).1.clients = st.clients ++ [(id, ok)] ∧
    (handleRegisterForStatus st id ok).1.sent
      = st.sent ++ (if ok then [(id, ⟨some st.inputs, true⟩)] else []) :=
  ⟨rfl, rfl, rfl⟩

end AjaxAlarm
